import Mathlib

/-!
Shallow embedding of `src/scripts/scrape-eventhub.js` (vit-verse/eventhubcc_scraper).

The repository ships two variants of the scraper in one file:
* a full-replace variant (`slugify`, `parseEventDate`, `isUpcomingOrOngoing`,
  `extractTeamSize`, `compressImageStrict`, `uploadPoster`,
  `clearEventHubPosters`, `scrapeEventHub`, `sync`, IIFE main), and
* an incremental-diff variant (`loadCache`, `saveCache`, `parseEventDate`,
  `parseTeamSize`, `scrapeEventHub`, `syncWithSupabase`, `main`).

Host-level behavior (the JS `Date` parser, local-midnight truncation, the
`sharp` encoder, network fetches and Supabase calls) is modelled by explicit
oracle parameters; everything the script itself computes (string handling,
`parseInt`, the regexes it uses, the diff/classification logic, the control
flow of the loops) is translated directly.
-/

/- ===================== JS string primitives ===================== -/

/-- JS whitespace (the characters relevant to `trim`, `parseInt` and `\s`
for the inputs this script handles). -/
def isJsWs (c : Char) : Bool :=
  c == ' ' || c == '\t' || c == '\n' || c == '\r'

/-- `String.prototype.trim`: strip leading and trailing whitespace. -/
def jsTrim (s : String) : String :=
  String.mk (((s.data.dropWhile isJsWs).reverse.dropWhile isJsWs).reverse)

/-- `String.prototype.toLowerCase` (ASCII, which is all this scraper feeds it). -/
def jsToLower (s : String) : String :=
  String.mk (s.data.map Char.toLower)

/-- Is `need` a prefix of `hay` (character lists)? -/
def listPrefixOf : List Char → List Char → Bool
  | [], _ => true
  | _ :: _, [] => false
  | a :: as, b :: bs => a == b && listPrefixOf as bs

/-- Does a character list contain `need` as a contiguous substring? -/
def containsSubList (need : List Char) : List Char → Bool
  | [] => need.isEmpty
  | c :: rest => listPrefixOf need (c :: rest) || containsSubList need rest

/-- `String.prototype.includes`: substring containment. -/
def jsIncludes (hay need : String) : Bool :=
  containsSubList need.data hay.data

/-- `t.startsWith(c)` for the single-character affixes used by the scraper. -/
def headIs (s : String) (c : Char) : Bool :=
  s.data.head? == some c

/-- `t.endsWith(c)` for the single-character affixes used by the scraper. -/
def lastIs (s : String) (c : Char) : Bool :=
  s.data.getLast? == some c

/-- `t.slice(1, -1)`: drop the first and last character. -/
def slice1m1 (s : String) : String :=
  String.mk ((s.data.drop 1).dropLast)

/- ===================== JS parseInt ===================== -/

/-- Hexadecimal digit test (for `parseInt`'s `0x` prefix handling). -/
def isHexDigitCh (c : Char) : Bool :=
  c.isDigit || ('a' ≤ c && c ≤ 'f') || ('A' ≤ c && c ≤ 'F')

/-- Value of one hexadecimal digit. -/
def hexDigitVal (c : Char) : Nat :=
  if c.isDigit then c.toNat - '0'.toNat
  else if 'a' ≤ c && c ≤ 'f' then c.toNat - 'a'.toNat + 10
  else c.toNat - 'A'.toNat + 10

/-- Value of a decimal digit string. -/
def decValue (ds : List Char) : Nat :=
  ds.foldl (fun a c => a * 10 + (c.toNat - '0'.toNat)) 0

/-- Value of a hexadecimal digit string. -/
def hexValue (ds : List Char) : Nat :=
  ds.foldl (fun a c => a * 16 + hexDigitVal c) 0

/-- The magnitude part of `parseInt` (radix unspecified): an optional `0x`/`0X`
prefix switches to base 16, otherwise the maximal leading run of decimal digits
is taken; no digits at all means `NaN` (`none`). Trailing garbage is ignored. -/
def parseNatPart : List Char → Option Nat
  | '0' :: 'x' :: rest =>
    let ds := rest.takeWhile isHexDigitCh
    if ds.isEmpty then none else some (hexValue ds)
  | '0' :: 'X' :: rest =>
    let ds := rest.takeWhile isHexDigitCh
    if ds.isEmpty then none else some (hexValue ds)
  | cs =>
    let ds := cs.takeWhile Char.isDigit
    if ds.isEmpty then none else some (decValue ds)

/-- JS `parseInt(s)` (no explicit radix): skip leading whitespace, read an
optional single sign character, then the magnitude; `none` models `NaN`. -/
def jsParseInt (s : String) : Option Int :=
  if (s.data.dropWhile isJsWs).head? = some '-' then
    (parseNatPart (s.data.dropWhile isJsWs).tail).map (fun n => -(n : Int))
  else if (s.data.dropWhile isJsWs).head? = some '+' then
    (parseNatPart (s.data.dropWhile isJsWs).tail).map (fun n => (n : Int))
  else
    (parseNatPart (s.data.dropWhile isJsWs)).map (fun n => (n : Int))

/-- `parseInt(x) || 0`: `NaN` and `0` (including `-0`) are falsy and give `0`;
any other parsed value passes through. -/
def jsOrZero (o : Option Int) : Int :=
  match o with
  | none => 0
  | some n => if n = 0 then 0 else n

/- ===================== slugify ===================== -/

/-- Characters kept by the slug: the class `[a-z0-9]` (checked after
lower-casing). -/
def isSlugChar (c : Char) : Bool :=
  ('a' ≤ c && c ≤ 'z') || ('0' ≤ c && c ≤ '9')

/-- `.replace(/[^a-z0-9]+/g, '-')`: each maximal run of non-slug characters
becomes a single dash.  The flag records whether we are inside such a run. -/
def collapseNonSlug : Bool → List Char → List Char
  | _, [] => []
  | inRun, c :: rest =>
    if isSlugChar c then c :: collapseNonSlug false rest
    else if inRun then collapseNonSlug true rest
    else '-' :: collapseNonSlug true rest

/-- `.replace(/(^-|-$)/g, '')`: remove one leading and one trailing dash. -/
def trimEdgeDashes (cs : List Char) : List Char :=
  let cs1 := match cs with
    | '-' :: rest => rest
    | other => other
  match cs1.getLast? with
  | some '-' => cs1.dropLast
  | _ => cs1

/-- `slugify` from the full-replace variant: lower-case, collapse non
`[a-z0-9]` runs to a single `-`, trim a leading/trailing `-`. -/
def slugify (s : String) : String :=
  String.mk (trimEdgeDashes (collapseNonSlug false (s.data.map Char.toLower)))

/- ===================== image compression ===================== -/

/-- The strict poster ceiling, `MAX_IMAGE_SIZE = 1024 * 1024`. -/
def MAX_IMAGE_SIZE : Nat := 1024 * 1024

/-- The `while (quality >= 30)` loop of `compressImageStrict`.  The host
encoder (`sharp(buffer).resize(...).webp({quality}).toBuffer()` for the fixed
input buffer) is the oracle `encode`, mapping a quality to the encoded bytes. -/
def compressLoop (encode : Nat → List Nat) (quality : Nat) :
    Except String (List Nat) :=
  if h : 30 ≤ quality then
    let output := encode quality
    if output.length < MAX_IMAGE_SIZE then .ok output
    else compressLoop encode (quality - 10)
  else .error "Poster cannot be compressed below 1MB"
termination_by quality
decreasing_by omega

/-- `compressImageStrict`: start the quality loop at 80. -/
def compressImageStrict (encode : Nat → List Nat) : Except String (List Nat) :=
  compressLoop encode 80

/- ===================== team-size regexes ===================== -/

/-- JS `\w`: `[A-Za-z0-9_]`, for `\b` word boundaries. -/
def isWordChar (c : Char) : Bool :=
  ('a' ≤ c && c ≤ 'z') || ('A' ≤ c && c ≤ 'Z') || c.isDigit || c == '_'

/-- Does the list start with a word character?  (`\b` fails after a digit run
exactly when this holds of the remainder.) -/
def wordStart (l : List Char) : Bool :=
  match l.head? with
  | some c => isWordChar c
  | none => false

/-- First alternative of `/\b\d+\s*-\s*\d+\b|\b\d+\b/` tried at the current
position (the caller has already checked the leading `\b`): digits, optional
whitespace, `-`, optional whitespace, digits, then a trailing `\b`.  Returns
the matched substring (`match[0]`, whitespace included). -/
def tryRangeAlt (cs : List Char) : Option (List Char) :=
  let ds1 := cs.takeWhile Char.isDigit
  if ds1.isEmpty then none else
  let r1 := cs.drop ds1.length
  let sp1 := r1.takeWhile isJsWs
  match r1.drop sp1.length with
  | '-' :: r3 =>
    let sp2 := r3.takeWhile isJsWs
    let r4 := r3.drop sp2.length
    let ds2 := r4.takeWhile Char.isDigit
    if ds2.isEmpty then none
    else if wordStart (r4.drop ds2.length) then none
    else some (ds1 ++ sp1 ++ ('-' :: sp2) ++ ds2)
  | _ => none

/-- Second alternative `\b\d+\b` tried at the current position. -/
def trySingleAlt (cs : List Char) : Option (List Char) :=
  let ds := cs.takeWhile Char.isDigit
  if ds.isEmpty then none
  else if wordStart (cs.drop ds.length) then none
  else some ds

/-- Leftmost match of `/\b\d+\s*-\s*\d+\b|\b\d+\b/`: walk the string, and at
each position whose left context is a non-word character (so `\b` can hold)
try the range alternative first, then the single-number one. -/
def reFindTeam : Bool → List Char → Option (List Char)
  | _, [] => none
  | prevWord, c :: rest =>
    match (if prevWord then none else (tryRangeAlt (c :: rest)).orElse
        (fun _ => trySingleAlt (c :: rest))) with
    | some m => some m
    | none => reFindTeam (isWordChar c) rest

/-- `extractTeamSize($card, $)` from the full-replace variant.  The jQuery
traversal is represented by the extracted pairs (icon `class` attribute,
`parent().text()`); the function scans every `<i>` icon, and for those whose
class contains `fa-user` re-assigns `teamSize` to the whitespace-stripped
regex match when one exists. -/
def extractTeamSize (icons : List (String × String)) : String :=
  icons.foldl
    (fun teamSize icon =>
      if jsIncludes icon.1 "fa-user" then
        match reFindTeam false icon.2.data with
        | some m => String.mk (m.filter (fun c => !isJsWs c))
        | none => teamSize
      else teamSize)
    "1"

/-- Leftmost match of `/(\d+)(?:-(\d+))?/` (incremental variant): the first
digit run is group 1; if a `-` and at least one digit follow immediately, the
next digit run is group 2. -/
def reFindRange : List Char → Option (List Char × Option (List Char))
  | [] => none
  | c :: rest =>
    if c.isDigit then
      let ds1 := (c :: rest).takeWhile Char.isDigit
      match (c :: rest).drop ds1.length with
      | '-' :: r2 =>
        let ds2 := r2.takeWhile Char.isDigit
        if ds2.isEmpty then some (ds1, none) else some (ds1, some ds2)
      | _ => some (ds1, none)
    else reFindRange rest

/-- `parseTeamSize` from the incremental variant: empty (falsy) input gives
"1"; a regex match gives "min-max" or the single number; otherwise "1" when
the lower-cased text contains "individual", else the text itself. -/
def parseTeamSize (teamSizeText : String) : String :=
  if teamSizeText == "" then "1"
  else
    match reFindRange teamSizeText.data with
    | some (g1, some g2) => String.mk (g1 ++ ('-' :: g2))
    | some (g1, none) => String.mk g1
    | none =>
      if jsIncludes (jsToLower teamSizeText) "individual" then "1"
      else teamSizeText

/- ===================== dates and the temporal filter ===================== -/

/-- Host date environment: `parse` models `new Date(s)` on this host
(`none` = Invalid Date), `floorDay` models `setHours(0,0,0,0)` in the local
time zone, `now` models the current clock instant.  Instants stand for their
unique `toISOString` rendering. -/
structure JsDateEnv where
  parse : String → Option Int
  floorDay : Int → Int
  now : Int

/-- `parseEventDate` of the full-replace variant:
`isNaN(d.getTime()) ? null : d.toISOString()`. -/
def parseEventDate1 (parse : String → Option Int) (dateStr : String) :
    Option Int :=
  match parse dateStr with
  | some t => some t
  | none => none

/-- `parseEventDate` of the incremental variant: `new Date(dateStr)
.toISOString()` inside `try`; on an invalid date `toISOString` throws and the
`catch` returns `new Date().toISOString()` — the current clock time. -/
def parseEventDate2 (parse : String → Option Int) (now : Int)
    (dateStr : String) : Option Int :=
  match parse dateStr with
  | some t => some t
  | none => some now

/-- `isUpcomingOrOngoing`: invalid dates are rejected; otherwise both the
event instant and `now` are truncated to local midnight and compared. -/
def isUpcomingOrOngoing (env : JsDateEnv) (dateStr : String) : Bool :=
  match env.parse dateStr with
  | none => false
  | some t => decide (env.floorDay env.now ≤ env.floorDay t)

/- ===================== records and the deriver ===================== -/

/-- The record shape produced by the scraper and stored in the cache/store
(union of the two variants' fields; instants stand for their ISO strings,
`none` models `null`). -/
structure EventRecord where
  id : String
  title : String
  event_date : Option Int
  venue : String
  category : String
  participant_type : String
  entry_fee : Int
  team_size : String
  poster_url : Option String
  is_active : Bool
deriving DecidableEq, Repr

/-- The raw per-card data the cheerio selectors of the full-replace variant
extract before any normalization: the `eid` button value (absent attribute =
`none`), the title/date/venue/fee span texts, every `div` text (for the
category scan), the optional participant span text, and the (`class`,
`parent().text()`) pairs of the `<i>` icons (for `extractTeamSize`). -/
structure RawCard where
  eid : Option String
  titleText : String
  dateText : String
  venueText : String
  divTexts : List String
  participantText : Option String
  feeText : String
  icons : List (String × String)

/-- Everything the full-replace scrape loop computes for one card before the
poster upload. -/
structure Derived where
  eventhubId : String
  variantKey : String
  id : String
  title : String
  event_date : Option Int
  venue : String
  category : String
  participant_type : String
  entry_fee : Int
  team_size : String
deriving DecidableEq, Repr

/-- The per-card body of the full-replace `scrapeEventHub` loop up to (not
including) the poster upload; `none` models a `continue`. -/
def deriveEvent (env : JsDateEnv) (c : RawCard) : Option Derived :=
  match c.eid with
  | none => none
  | some eid =>
    if eid == "" || eid == "0" then none else
    let title := jsTrim c.titleText
    if title == "" then none else
    let dateStr := jsTrim c.dateText
    if !isUpcomingOrOngoing env dateStr then none else
    let venue := if jsTrim c.venueText == "" then "TBA" else jsTrim c.venueText
    let category := c.divTexts.foldl
      (fun acc d =>
        let t := jsTrim d
        if headIs t '(' && lastIs t ')' then slice1m1 t else acc)
      "General"
    let participant_type := match c.participantText with
      | none => "All"
      | some p => jsTrim p
    let feeText := jsTrim c.feeText
    let entry_fee :=
      if jsToLower feeText == "free" then 0 else jsOrZero (jsParseInt feeText)
    let team_size := extractTeamSize c.icons
    let variantKey :=
      slugify (category ++ "|" ++ participant_type ++ "|" ++ toString entry_fee)
    some
      { eventhubId := eid
        variantKey := variantKey
        id := "official:" ++ eid ++ ":" ++ variantKey
        title := title
        event_date := parseEventDate1 env.parse dateStr
        venue := venue
        category := category
        participant_type := participant_type
        entry_fee := entry_fee
        team_size := team_size }

/-- The object pushed onto `events` after a successful poster upload. -/
def mkRecord (d : Derived) (posterUrl : String) : EventRecord :=
  { id := d.id
    title := d.title
    event_date := d.event_date
    venue := d.venue
    category := d.category
    participant_type := d.participant_type
    entry_fee := d.entry_fee
    team_size := d.team_size
    poster_url := some posterUrl
    is_active := true }

/-- The full-replace `scrapeEventHub` card loop.  `upload` is the
`uploadPoster(eventhubId, variantKey)` pipeline (fetch + compress + upload +
public URL), which may throw; a thrown error propagates out of the whole loop,
exactly as an un-caught `await` rejection does in the source. -/
def scrapeLoop (env : JsDateEnv)
    (upload : String → String → Except String String) :
    List RawCard → Except String (List EventRecord)
  | [] => .ok []
  | card :: rest =>
    match deriveEvent env card with
    | none => scrapeLoop env upload rest
    | some d =>
      match upload d.eventhubId d.variantKey with
      | .error e => .error e
      | .ok url =>
        match scrapeLoop env upload rest with
        | .error e => .error e
        | .ok events => .ok (mkRecord d url :: events)

/- ===================== object store (full-replace cycle) ===================== -/

/-- The poster path `uploadPoster` writes:
`${BASE_FOLDER}/${eventhubId}/${variantKey}.webp` with `BASE_FOLDER =
'eventhub'`. -/
def posterPath (eventhubId variantKey : String) : String :=
  "eventhub/" ++ eventhubId ++ "/" ++ variantKey ++ ".webp"

/-- Supabase storage `upload(..., { upsert: true })`: the path is present
afterwards (overwrite on conflict, no duplicate entries). -/
def objUpload (store : List String) (p : String) : List String :=
  if store.contains p then store else store ++ [p]

/-- `clearEventHubPosters`: list the folders under `eventhub`, list the files
in each, and remove them all — i.e. every stored path under the `eventhub/`
prefix disappears (the code only ever creates the two-level layout
`eventhub/<id>/<file>` this realizes). -/
def clearEventHubPosters (store : List String) : List String :=
  store.filter (fun p => !(listPrefixOf "eventhub/".data p.data))

/-- `scrapeEventHub`'s effect on the object store, in loop order, with every
upload succeeding: each derived card's poster is uploaded before the next card
is processed. -/
def runScrape (env : JsDateEnv) (store : List String) (cards : List RawCard) :
    List String × List Derived :=
  cards.foldl
    (fun acc card =>
      match deriveEvent env card with
      | none => acc
      | some d => (objUpload acc.1 (posterPath d.eventhubId d.variantKey),
                   acc.2 ++ [d]))
    (store, [])

/-- `sync(events)`'s effect on the object store: `clearEventHubPosters()` runs
first (the record-table delete and insert do not touch the object store). -/
def runSync (store : List String) : List String :=
  clearEventHubPosters store

/-- The full-replace main IIFE, object-store view: scrape (posters uploaded
per admitted card), then — only when some events were found — `sync`. -/
def runCycle (env : JsDateEnv) (store : List String) (cards : List RawCard) :
    List String :=
  let scraped := runScrape env store cards
  if scraped.2.isEmpty then scraped.1 else runSync scraped.1

/- ===================== reconciler (incremental variant) ===================== -/

/-- `new Map(list.map(e => [e.id, e])).get(k)`: insertion in list order with
later entries overwriting earlier ones, so lookup returns the last record
with the given id. -/
def jsMapGet (l : List EventRecord) (k : String) : Option EventRecord :=
  l.reverse.find? (fun e => e.id == k)

/-- `scrapedMap.has(k)`. -/
def jsMapHas (l : List EventRecord) (k : String) : Bool :=
  l.any (fun e => e.id == k)

/-- The tracked-field comparison of `syncWithSupabase`: `posterUrl`,
`participant_type`, `is_active` and `scraped_at` are deliberately not
compared. -/
def hasChanged (cached event : EventRecord) : Bool :=
  cached.title != event.title ||
  cached.event_date != event.event_date ||
  cached.venue != event.venue ||
  cached.category != event.category ||
  cached.entry_fee != event.entry_fee ||
  cached.team_size != event.team_size

/-- Events pushed onto `newEvents`: scraped events with no cached entry. -/
def newEvents (cached scraped : List EventRecord) : List EventRecord :=
  scraped.filter (fun e => (jsMapGet cached e.id).isNone)

/-- Events pushed onto `updatedEvents`: cached entry exists and a tracked
field differs. -/
def updatedEvents (cached scraped : List EventRecord) : List EventRecord :=
  scraped.filter (fun e =>
    match jsMapGet cached e.id with
    | some c => hasChanged c e
    | none => false)

/-- Events pushed onto `unchangedEvents`: cached entry exists, no tracked
field differs. -/
def unchangedEvents (cached scraped : List EventRecord) : List EventRecord :=
  scraped.filter (fun e =>
    match jsMapGet cached e.id with
    | some c => !hasChanged c e
    | none => false)

/-- Ids pushed onto `deletedEventIds`: cached events absent from the scraped
map. -/
def deletedEventIds (cached scraped : List EventRecord) : List String :=
  (cached.filter (fun c => !jsMapHas scraped c.id)).map (fun c => c.id)

/-- The id projection of a record list. -/
def ids (l : List EventRecord) : List String :=
  l.map (fun e => e.id)

/- ===================== snapshot cache / sync / main ===================== -/

/-- The JSON written by `saveCache` (`lastScrape` is `new Date().toISOString()`
at save time). -/
structure CacheData where
  events : List EventRecord
  lastScrape : Option Int
  totalEvents : Nat
deriving DecidableEq, Repr

/-- `loadCache`: a readable file yields its contents; absence (or a read/parse
error, which the `catch` swallows) yields `{ events: [], lastScrape: null }`. -/
def loadCache (file : Option CacheData) : CacheData :=
  match file with
  | some d => d
  | none => { events := [], lastScrape := none, totalEvents := 0 }

/-- `saveCache(events)`: the whole body is inside `try`/`catch`, so a failing
filesystem write (`writeFails`) leaves the file as it was and the function
still returns normally. -/
def saveCache (now : Int) (writeFails : Bool) (file : Option CacheData)
    (events : List EventRecord) : Option CacheData :=
  if writeFails then file
  else some { events := events, lastScrape := some now,
              totalEvents := events.length }

/-- The result object `syncWithSupabase` returns on success. -/
structure SyncResult where
  success : Bool
  totalEvents : Nat
  newCount : Nat
  updatedCount : Nat
  deletedCount : Nat
  unchangedCount : Nat
deriving DecidableEq, Repr

/-- `syncWithSupabase`: load the cache, classify, upsert new+updated (only
when nonempty; a store error throws), mark deleted ids inactive (only when
nonempty; a store error throws), then `saveCache` (whose failure is swallowed)
and return the success summary.  `upsertErr`/`updateErr` are the store
oracles' outcomes; the pair also carries the cache file's state after the
call. -/
def syncWithSupabase (now : Int) (writeFails : Bool)
    (upsertErr updateErr : Option String) (file : Option CacheData)
    (scrapedEvents : List EventRecord) :
    Except String (SyncResult × Option CacheData) :=
  let cachedEvents := (loadCache file).events
  let news := newEvents cachedEvents scrapedEvents
  let upds := updatedEvents cachedEvents scrapedEvents
  let unch := unchangedEvents cachedEvents scrapedEvents
  let delIds := deletedEventIds cachedEvents scrapedEvents
  match (if news.length > 0 || upds.length > 0 then upsertErr else none) with
  | some e => .error ("Upsert failed: " ++ e)
  | none =>
    match (if delIds.length > 0 then updateErr else none) with
    | some e => .error ("Delete failed: " ++ e)
    | none =>
      let file1 := saveCache now writeFails file scrapedEvents
      .ok ({ success := true
             totalEvents := scrapedEvents.length
             newCount := news.length
             updatedCount := upds.length
             deletedCount := delIds.length
             unchangedCount := unch.length }, file1)

/-- `main` of the incremental variant: missing credentials throw; a scrape
error throws; zero scraped events throw; a sync error throws; every `catch`
ends in `process.exit(1)`, success in `process.exit(0)`.  Returns the exit
code and the cache file's final state. -/
def mainIncremental (envOk : Bool)
    (scrapeRes : Except String (List EventRecord)) (now : Int)
    (writeFails : Bool) (upsertErr updateErr : Option String)
    (file : Option CacheData) : Nat × Option CacheData :=
  if !envOk then (1, file)
  else
    match scrapeRes with
    | .error _ => (1, file)
    | .ok scraped =>
      if scraped.length == 0 then (1, file)
      else
        match syncWithSupabase now writeFails upsertErr updateErr file scraped with
        | .error _ => (1, file)
        | .ok (_, file1) => (0, file1)

/- ===================== fee derivations and sample inputs ===================== -/

/-- The entry-fee derivation of the full-replace variant:
`feeText.toLowerCase() === 'free' ? 0 : parseInt(feeText) || 0`. -/
def entryFee1 (feeText : String) : Int :=
  if jsToLower feeText == "free" then 0 else jsOrZero (jsParseInt feeText)

/-- The entry-fee derivation of the incremental variant:
`parseInt(feeStr) || 0` (no "free" check; `parseInt` makes "free" `NaN`,
which `|| 0` turns into 0 anyway). -/
def entryFee2 (feeStr : String) : Int :=
  jsOrZero (jsParseInt feeStr)

/-- Nonempty all-digit character list. -/
def isDigitsL (l : List Char) : Bool :=
  !l.isEmpty && l.all Char.isDigit

/-- A single-integer string. -/
def isDigitsStr (s : String) : Bool :=
  isDigitsL s.data

/-- A `min-max` string: digits, `-`, digits and nothing else. -/
def isRangeStr (s : String) : Bool :=
  let d1 := s.data.takeWhile Char.isDigit
  match s.data.drop d1.length with
  | '-' :: r => !d1.isEmpty && isDigitsL r
  | _ => false

/-- A concrete host date environment for closed runs: only "2099-01-01"
parses (to instant 0), midnight truncation is the identity, the clock reads
0 — so "2099-01-01" passes the temporal filter. -/
def sampleEnv : JsDateEnv :=
  { parse := fun s => if s = "2099-01-01" then some 0 else none
    floorDay := fun t => t
    now := 0 }

/-- A minimal admitted card with the given source id: valid eid, title "A",
a date that passes `sampleEnv`'s filter, everything else empty/defaulted. -/
def sampleCard (eid : String) : RawCard :=
  { eid := some eid
    titleText := "A"
    dateText := "2099-01-01"
    venueText := ""
    divTexts := []
    participantText := none
    feeText := ""
    icons := [] }

/- ===================== claim-level predicates ===================== -/

/-- Exactly one of four propositions holds. -/
def exactlyOne (p1 p2 p3 p4 : Prop) : Prop :=
  (p1 ∨ p2 ∨ p3 ∨ p4) ∧ ¬(p1 ∧ p2) ∧ ¬(p1 ∧ p3) ∧ ¬(p1 ∧ p4) ∧
    ¬(p2 ∧ p3) ∧ ¬(p2 ∧ p4) ∧ ¬(p3 ∧ p4)

/-- The C1 conclusion for one id: it lands in exactly one of the four
classes, and each class holds precisely under its defining condition
(`hasChanged` compares the tracked fields title/event_date/venue/category/
entry_fee/team_size only). -/
def classifiedOK (c s : List EventRecord) (i : String) : Prop :=
  exactlyOne (i ∈ ids (newEvents c s)) (i ∈ ids (updatedEvents c s))
    (i ∈ ids (unchangedEvents c s)) (i ∈ deletedEventIds c s) ∧
  (i ∈ ids (newEvents c s) ↔ i ∈ ids s ∧ i ∉ ids c) ∧
  (i ∈ ids (updatedEvents c s) ↔
    ∃ e, e ∈ s ∧ ∃ cc, cc ∈ c ∧ e.id = i ∧ cc.id = i ∧
      hasChanged cc e = true) ∧
  (i ∈ ids (unchangedEvents c s) ↔
    ∃ e, e ∈ s ∧ ∃ cc, cc ∈ c ∧ e.id = i ∧ cc.id = i ∧
      hasChanged cc e = false) ∧
  (i ∈ deletedEventIds c s ↔ i ∈ ids c ∧ i ∉ ids s)

/- ===================== lemmas about the compression loop ===================== -/

theorem compressLoop_ge (encode : Nat → List Nat) (q : Nat) (h : 30 ≤ q) :
    compressLoop encode q =
      if (encode q).length < MAX_IMAGE_SIZE then .ok (encode q)
      else compressLoop encode (q - 10) := by
  rw [compressLoop]
  simp [h]

theorem compressLoop_lt (encode : Nat → List Nat) (q : Nat) (h : q < 30) :
    compressLoop encode q = .error "Poster cannot be compressed below 1MB" := by
  rw [compressLoop]
  simp [Nat.not_le.mpr h]

theorem compressLoop_ok_bound (encode : Nat → List Nat) :
    ∀ q out, compressLoop encode q = .ok out → out.length < MAX_IMAGE_SIZE := by
  intro q
  induction q using Nat.strong_induction_on with
  | _ q ih =>
    intro out h
    by_cases hq : 30 ≤ q
    · rw [compressLoop_ge encode q hq] at h
      by_cases hl : (encode q).length < MAX_IMAGE_SIZE
      · rw [if_pos hl] at h
        cases h
        exact hl
      · rw [if_neg hl] at h
        exact ih (q - 10) (by omega) out h
    · rw [compressLoop_lt encode q (by omega)] at h
      cases h

/-- C3: for every input image (represented by its per-quality encoding
`encode`), `compressImageStrict` tries qualities 80, 70, 60, 50, 40, 30 in
that order and returns the first encoding strictly below 1 MiB
(1048576 bytes); it never returns bytes of length ≥ 1 MiB, and when no
quality in the schedule meets the ceiling it fails with the
cannot-compress error instead of returning bytes. -/
theorem claim_C3_compression_schedule (encode : Nat → List Nat) :
    (compressImageStrict encode =
      match [80, 70, 60, 50, 40, 30].find?
          (fun q => decide ((encode q).length < MAX_IMAGE_SIZE)) with
       | some q => .ok (encode q)
       | none => .error "Poster cannot be compressed below 1MB") ∧
    (∀ out, compressImageStrict encode = .ok out → out.length < 1048576) := by
  constructor
  · unfold compressImageStrict
    rw [compressLoop_ge encode 80 (by decide)]
    by_cases h80 : (encode 80).length < MAX_IMAGE_SIZE
    · simp [List.find?, h80]
    · rw [if_neg h80]
      rw [show (80:Nat) - 10 = 70 from rfl, compressLoop_ge encode 70 (by decide)]
      by_cases h70 : (encode 70).length < MAX_IMAGE_SIZE
      · simp [List.find?, h80, h70]
      · rw [if_neg h70]
        rw [show (70:Nat) - 10 = 60 from rfl, compressLoop_ge encode 60 (by decide)]
        by_cases h60 : (encode 60).length < MAX_IMAGE_SIZE
        · simp [List.find?, h80, h70, h60]
        · rw [if_neg h60]
          rw [show (60:Nat) - 10 = 50 from rfl, compressLoop_ge encode 50 (by decide)]
          by_cases h50 : (encode 50).length < MAX_IMAGE_SIZE
          · simp [List.find?, h80, h70, h60, h50]
          · rw [if_neg h50]
            rw [show (50:Nat) - 10 = 40 from rfl, compressLoop_ge encode 40 (by decide)]
            by_cases h40 : (encode 40).length < MAX_IMAGE_SIZE
            · simp [List.find?, h80, h70, h60, h50, h40]
            · rw [if_neg h40]
              rw [show (40:Nat) - 10 = 30 from rfl, compressLoop_ge encode 30 (by decide)]
              by_cases h30 : (encode 30).length < MAX_IMAGE_SIZE
              · simp [List.find?, h80, h70, h60, h50, h40, h30]
              · rw [if_neg h30]
                rw [show (30:Nat) - 10 = 20 from rfl,
                  compressLoop_lt encode 20 (by decide)]
                simp [List.find?, h80, h70, h60, h50, h40, h30]
  · intro out h
    have := compressLoop_ok_bound encode 80 out h
    simpa [MAX_IMAGE_SIZE] using this

/-- C3 witness: a trivially small encoding is accepted at the first quality
and the returned bytes are under the ceiling. -/
theorem claim_C3_witness :
    (compressImageStrict (fun _ => []) = .ok []) ∧
      ([] : List Nat).length < 1048576 := by
  have h := claim_C3_compression_schedule (fun _ => [])
  have hok : compressImageStrict (fun _ => []) = .ok [] := by
    rw [h.1]
    rfl
  exact ⟨hok, h.2 [] hok⟩

/- ===================== lemmas about the reconciler ===================== -/

theorem mem_ids_iff (l : List EventRecord) (i : String) :
    i ∈ ids l ↔ ∃ e, e ∈ l ∧ e.id = i := by
  simp [ids, List.mem_map]

theorem mem_ids_filter (s : List EventRecord) (p : EventRecord → Bool)
    (i : String) :
    i ∈ ids (s.filter p) ↔ ∃ e, e ∈ s ∧ p e = true ∧ e.id = i := by
  simp only [ids, List.mem_map, List.mem_filter]
  constructor
  · rintro ⟨e, ⟨hm, hp⟩, hid⟩
    exact ⟨e, hm, hp, hid⟩
  · rintro ⟨e, hm, hp, hid⟩
    exact ⟨e, ⟨hm, hp⟩, hid⟩

theorem jsMapGet_eq_none_iff (c : List EventRecord) (k : String) :
    jsMapGet c k = none ↔ k ∉ ids c := by
  simp only [jsMapGet, List.find?_eq_none, List.mem_reverse, mem_ids_iff,
    beq_iff_eq]
  constructor
  · rintro h ⟨e, hm, hid⟩
    exact h e hm hid
  · intro h e hm hid
    exact h ⟨e, hm, hid⟩

theorem jsMapGet_mem {c : List EventRecord} {k : String} {cc : EventRecord}
    (h : jsMapGet c k = some cc) : cc ∈ c ∧ cc.id = k := by
  refine ⟨List.mem_reverse.mp (List.mem_of_find?_eq_some h), ?_⟩
  have := List.find?_some h
  exact beq_iff_eq.mp this

theorem jsMapGet_some_of_mem {c : List EventRecord} {k : String}
    {cc : EventRecord} (hc : (ids c).Nodup) (hm : cc ∈ c) (hk : cc.id = k) :
    jsMapGet c k = some cc := by
  cases h : jsMapGet c k with
  | none =>
    exact absurd (mem_ids_iff c k |>.mpr ⟨cc, hm, hk⟩)
      ((jsMapGet_eq_none_iff c k).mp h)
  | some e =>
    obtain ⟨hem, heid⟩ := jsMapGet_mem h
    have : e = cc :=
      List.inj_on_of_nodup_map hc hem hm (by rw [heid, hk])
    rw [this]

theorem jsMapHas_iff (s : List EventRecord) (k : String) :
    jsMapHas s k = true ↔ k ∈ ids s := by
  simp [jsMapHas, List.any_eq_true, mem_ids_iff, beq_iff_eq]

theorem mem_newEvents_iff (c s : List EventRecord) (i : String) :
    i ∈ ids (newEvents c s) ↔ i ∈ ids s ∧ i ∉ ids c := by
  rw [newEvents, mem_ids_filter]
  constructor
  · rintro ⟨e, hm, hp, hid⟩
    refine ⟨(mem_ids_iff s i).mpr ⟨e, hm, hid⟩, ?_⟩
    rw [Option.isNone_iff_eq_none] at hp
    rw [← hid]
    exact (jsMapGet_eq_none_iff c e.id).mp hp
  · rintro ⟨his, hic⟩
    obtain ⟨e, hm, hid⟩ := (mem_ids_iff s i).mp his
    refine ⟨e, hm, ?_, hid⟩
    rw [Option.isNone_iff_eq_none, jsMapGet_eq_none_iff, hid]
    exact hic

theorem mem_updatedEvents_iff (c s : List EventRecord) (hc : (ids c).Nodup)
    (i : String) :
    i ∈ ids (updatedEvents c s) ↔
      ∃ e, e ∈ s ∧ ∃ cc, cc ∈ c ∧ e.id = i ∧ cc.id = i ∧
        hasChanged cc e = true := by
  rw [updatedEvents, mem_ids_filter]
  constructor
  · rintro ⟨e, hm, hp, hid⟩
    cases hg : jsMapGet c e.id with
    | none => rw [hg] at hp; cases hp
    | some cc =>
      rw [hg] at hp
      obtain ⟨hcm, hcid⟩ := jsMapGet_mem hg
      exact ⟨e, hm, cc, hcm, hid, by rw [hcid, hid], hp⟩
  · rintro ⟨e, hm, cc, hcm, hid, hcid, hch⟩
    refine ⟨e, hm, ?_, hid⟩
    rw [jsMapGet_some_of_mem hc hcm (by rw [hcid, hid])]
    exact hch

theorem mem_unchangedEvents_iff (c s : List EventRecord) (hc : (ids c).Nodup)
    (i : String) :
    i ∈ ids (unchangedEvents c s) ↔
      ∃ e, e ∈ s ∧ ∃ cc, cc ∈ c ∧ e.id = i ∧ cc.id = i ∧
        hasChanged cc e = false := by
  rw [unchangedEvents, mem_ids_filter]
  constructor
  · rintro ⟨e, hm, hp, hid⟩
    cases hg : jsMapGet c e.id with
    | none => rw [hg] at hp; cases hp
    | some cc =>
      rw [hg] at hp
      obtain ⟨hcm, hcid⟩ := jsMapGet_mem hg
      exact ⟨e, hm, cc, hcm, hid, by rw [hcid, hid],
        by simpa using hp⟩
  · rintro ⟨e, hm, cc, hcm, hid, hcid, hch⟩
    refine ⟨e, hm, ?_, hid⟩
    rw [jsMapGet_some_of_mem hc hcm (by rw [hcid, hid])]
    simpa using hch

theorem mem_deletedIds_iff (c s : List EventRecord) (i : String) :
    i ∈ deletedEventIds c s ↔ i ∈ ids c ∧ i ∉ ids s := by
  have : deletedEventIds c s = ids (c.filter (fun cc => !jsMapHas s cc.id)) :=
    rfl
  rw [this, mem_ids_filter]
  constructor
  · rintro ⟨e, hm, hp, hid⟩
    refine ⟨(mem_ids_iff c i).mpr ⟨e, hm, hid⟩, ?_⟩
    intro habs
    rw [Bool.not_eq_true', ← Bool.not_eq_true] at hp
    exact hp ((jsMapHas_iff s e.id).mpr (by rwa [hid]))
  · rintro ⟨hic, his⟩
    obtain ⟨e, hm, hid⟩ := (mem_ids_iff c i).mp hic
    refine ⟨e, hm, ?_, hid⟩
    rw [Bool.not_eq_true', ← Bool.not_eq_true]
    intro habs
    exact his (by rw [← hid]; exact (jsMapHas_iff s e.id).mp habs)

/-- C1: for previous set `c` and current set `s` (sets: no duplicate ids),
every id of `ids c ∪ ids s` is classified by `syncWithSupabase` into exactly
one of New/Updated/Unchanged/Deleted, each under its defining condition. -/
theorem claim_C1_reconciler_partition (c s : List EventRecord)
    (hc : (ids c).Nodup) (hs : (ids s).Nodup) (i : String)
    (hi : i ∈ ids c ∨ i ∈ ids s) : classifiedOK c s i := by
  have hA := mem_newEvents_iff c s i
  have hU := mem_updatedEvents_iff c s hc i
  have hN := mem_unchangedEvents_iff c s hc i
  have hD := mem_deletedIds_iff c s i
  have hs' : (s.map (fun e => e.id)).Nodup := hs
  have hc' : (c.map (fun e => e.id)).Nodup := hc
  have injs : ∀ {e1 e2 : EventRecord}, e1 ∈ s → e2 ∈ s → e1.id = e2.id →
      e1 = e2 := fun h1 h2 h3 =>
    List.inj_on_of_nodup_map hs' h1 h2 h3
  have injc : ∀ {e1 e2 : EventRecord}, e1 ∈ c → e2 ∈ c → e1.id = e2.id →
      e1 = e2 := fun h1 h2 h3 =>
    List.inj_on_of_nodup_map hc' h1 h2 h3
  refine ⟨?_, hA, hU, hN, hD⟩
  by_cases his : i ∈ ids s <;> by_cases hic : i ∈ ids c
  · -- present in both: Updated or Unchanged, exclusively
    obtain ⟨e, hm, hid⟩ := (mem_ids_iff s i).mp his
    obtain ⟨cc, hcm, hcid⟩ := (mem_ids_iff c i).mp hic
    have notA : ¬ i ∈ ids (newEvents c s) := fun h => (hA.mp h).2 hic
    have notD : ¬ i ∈ deletedEventIds c s := fun h => (hD.mp h).2 his
    cases hch : hasChanged cc e with
    | true =>
      have hUy : i ∈ ids (updatedEvents c s) :=
        hU.mpr ⟨e, hm, cc, hcm, hid, hcid, hch⟩
      have notN : ¬ i ∈ ids (unchangedEvents c s) := by
        intro h
        obtain ⟨e2, hm2, cc2, hcm2, hid2, hcid2, hch2⟩ := hN.mp h
        rw [injs hm2 hm (hid2.trans hid.symm),
          injc hcm2 hcm (hcid2.trans hcid.symm)] at hch2
        simp [hch] at hch2
      exact ⟨Or.inr (Or.inl hUy), fun h => notA h.1, fun h => notA h.1,
        fun h => notA h.1, fun h => notN h.2, fun h => notD h.2,
        fun h => notN h.1⟩
    | false =>
      have hNy : i ∈ ids (unchangedEvents c s) :=
        hN.mpr ⟨e, hm, cc, hcm, hid, hcid, hch⟩
      have notU : ¬ i ∈ ids (updatedEvents c s) := by
        intro h
        obtain ⟨e2, hm2, cc2, hcm2, hid2, hcid2, hch2⟩ := hU.mp h
        rw [injs hm2 hm (hid2.trans hid.symm),
          injc hcm2 hcm (hcid2.trans hcid.symm)] at hch2
        simp [hch] at hch2
      exact ⟨Or.inr (Or.inr (Or.inl hNy)), fun h => notA h.1,
        fun h => notA h.1, fun h => notA h.1, fun h => notU h.1,
        fun h => notD h.2, fun h => notD h.2⟩
  · -- present only in the current pass: New
    have hAy : i ∈ ids (newEvents c s) := hA.mpr ⟨his, hic⟩
    have notU : ¬ i ∈ ids (updatedEvents c s) := by
      intro h
      obtain ⟨e2, hm2, cc2, hcm2, hid2, hcid2, hch2⟩ := hU.mp h
      exact hic ((mem_ids_iff c i).mpr ⟨cc2, hcm2, hcid2⟩)
    have notN : ¬ i ∈ ids (unchangedEvents c s) := by
      intro h
      obtain ⟨e2, hm2, cc2, hcm2, hid2, hcid2, hch2⟩ := hN.mp h
      exact hic ((mem_ids_iff c i).mpr ⟨cc2, hcm2, hcid2⟩)
    have notD : ¬ i ∈ deletedEventIds c s := fun h => hic (hD.mp h).1
    exact ⟨Or.inl hAy, fun h => notU h.2, fun h => notN h.2,
      fun h => notD h.2, fun h => notU h.1, fun h => notU h.1,
      fun h => notN h.1⟩
  · -- present only in the previous snapshot: Deleted
    have hDy : i ∈ deletedEventIds c s := hD.mpr ⟨hic, his⟩
    have notA : ¬ i ∈ ids (newEvents c s) := fun h => his (hA.mp h).1
    have notU : ¬ i ∈ ids (updatedEvents c s) := by
      intro h
      obtain ⟨e2, hm2, cc2, hcm2, hid2, hcid2, hch2⟩ := hU.mp h
      exact his ((mem_ids_iff s i).mpr ⟨e2, hm2, hid2⟩)
    have notN : ¬ i ∈ ids (unchangedEvents c s) := by
      intro h
      obtain ⟨e2, hm2, cc2, hcm2, hid2, hcid2, hch2⟩ := hN.mp h
      exact his ((mem_ids_iff s i).mpr ⟨e2, hm2, hid2⟩)
    exact ⟨Or.inr (Or.inr (Or.inr hDy)), fun h => notA h.1,
      fun h => notA h.1, fun h => notA h.1, fun h => notU h.1,
      fun h => notU h.1, fun h => notN h.1⟩
  · exact absurd hi (by simp [his, hic])

/-- C1 witness: previous snapshot holds ids a (title t) and b; the current
pass holds a changed a (title u) and a fresh id d; the id a is classified
exactly once (as Updated). -/
theorem claim_C1_witness :
    classifiedOK
      [⟨"a", "t", none, "v", "g", "all", 0, "1", none, true⟩,
       ⟨"b", "t", none, "v", "g", "all", 0, "1", none, true⟩]
      [⟨"a", "u", none, "v", "g", "all", 0, "1", none, true⟩,
       ⟨"d", "t", none, "v", "g", "all", 0, "1", none, true⟩]
      "a" :=
  claim_C1_reconciler_partition _ _ (by decide) (by decide) "a"
    (Or.inl (by decide))

/-- C7: the RawFields with eventSourceId "42", title "Hack Night", date
"2099-01-01", a div text "(Workshop)", fee text "Free" and team text "2-4"
derive (whenever the date passes the temporal filter) an EventRecord with id
"official:42:workshop-all-0", entryFee 0, teamSize "2-4" and category
"Workshop". -/
theorem claim_C7_scenario (env : JsDateEnv)
    (h : isUpcomingOrOngoing env "2099-01-01" = true) :
    (deriveEvent env
        ⟨some "42", "Hack Night", "2099-01-01", "", ["(Workshop)"], none,
          "Free", [("fa-user", "2-4")]⟩).map
      (fun d => (d.id, d.entry_fee, d.team_size, d.category)) =
    some ("official:42:workshop-all-0", 0, "2-4", "Workshop") := by
  simp [deriveEvent, h]
  exact ⟨_, ⟨by decide, h, rfl⟩, rfl, rfl, rfl, rfl⟩

/-- C2 (amended): a failure raised from one event's image pipeline
(`uploadPoster`: fetch, compression or upload) is NOT isolated — it
propagates out of the scrape loop, the remaining cards are never processed
and the whole run fails with that error. -/
theorem claim_C2_image_failure_aborts_run (env : JsDateEnv)
    (upload : String → String → Except String String) (card : RawCard)
    (rest : List RawCard) (d : Derived) (e : String)
    (h1 : deriveEvent env card = some d)
    (h2 : upload d.eventhubId d.variantKey = .error e) :
    scrapeLoop env upload (card :: rest) = .error e := by
  simp [scrapeLoop, h1, h2]

/-- C2 counterexample: with an upload that fails only for event 1 while
event 2's pipeline succeeds on its own, the two-card run aborts with the
error and emits nothing — the failure does not affect only event 1 and the
run does not continue. -/
theorem claim_C2_counterexample :
    (scrapeLoop sampleEnv
        (fun eid _ => if eid == "1" then .error "boom" else .ok "u")
        [sampleCard "1", sampleCard "2"] = .error "boom") ∧
    (scrapeLoop sampleEnv
        (fun eid _ => if eid == "1" then .error "boom" else .ok "u")
        [sampleCard "2"] =
      .ok [⟨"official:2:general-all-0", "A", some 0, "TBA", "General", "All",
        0, "1", some "u", true⟩]) := by
  constructor
  · rfl
  · rfl

/-- C4 (amended): the scrape pass performs no intra-pass deduplication:
with every upload succeeding it emits exactly one record per non-discarded
card, in order, so entries deriving the same id each contribute a record. -/
theorem claim_C4_no_dedup_in_pass (env : JsDateEnv) (f : String → String → String)
    (cards : List RawCard) :
    scrapeLoop env (fun eid vk => .ok (f eid vk)) cards =
      .ok ((cards.filterMap (deriveEvent env)).map
        (fun d => mkRecord d (f d.eventhubId d.variantKey))) := by
  induction cards with
  | nil => rfl
  | cons card rest ih =>
    cases hd : deriveEvent env card with
    | none => simp [scrapeLoop, hd, ih]
    | some d => simp [scrapeLoop, hd, ih]

/-- C4 counterexample: two identical cards deriving the same id both
survive — the emitted pass contains the id "official:1:general-all-0"
twice, not at most once. -/
theorem claim_C4_counterexample :
    ((scrapeLoop sampleEnv (fun _ _ => .ok "u")
        [sampleCard "1", sampleCard "1"]).toOption.getD []).map
      (fun ev => ev.id) =
      ["official:1:general-all-0", "official:1:general-all-0"] ∧
    ¬ (((scrapeLoop sampleEnv (fun _ _ => .ok "u")
        [sampleCard "1", sampleCard "1"]).toOption.getD []).map
          (fun ev => ev.id)).count "official:1:general-all-0" ≤ 1 := by
  constructor
  · rfl
  · decide

/-- C5 (code bug witness): running the full-replace cycle on one admitted
card, the fresh poster IS uploaded during the scrape phase but is gone after
the same cycle's `sync`, because `clearEventHubPosters` runs after the
uploads and wipes the whole `eventhub/` namespace. -/
theorem claim_C5_cleanup_removes_fresh_posters :
    ((runScrape sampleEnv [] [sampleCard "7"]).1.contains
      (posterPath "7" "general-all-0") = true) ∧
    ((runCycle sampleEnv [] [sampleCard "7"]).contains
      (posterPath "7" "general-all-0") = false) := by
  exact ⟨rfl, rfl⟩

/-- C10: when the snapshot write fails after successful store mutations,
`saveCache`'s catch swallows the error: `syncWithSupabase` still returns
success with the cache file left in its stale prior state, and `main` exits
with code 0 — so the next run will diff against the stale snapshot. -/
theorem claim_C10_cache_write_failure_swallowed (now : Int) (file : Option CacheData)
    (scraped : List EventRecord) (h : scraped ≠ []) :
    (syncWithSupabase now true none none file scraped).map
      (fun r => (r.1.success, r.2)) = .ok (true, file) ∧
    mainIncremental true (.ok scraped) now true none none file = (0, file) := by
  cases scraped with
  | nil => exact absurd rfl h
  | cons a as =>
    constructor
    · simp [syncWithSupabase, saveCache, ite_self, Except.map]
    · simp [mainIncremental, syncWithSupabase, saveCache, ite_self]


theorem jsOrZero_nonneg_of (o : Option Int) (h : ∀ n, o = some n → 0 ≤ n) :
    0 ≤ jsOrZero o := by
  cases o with
  | none => simp [jsOrZero]
  | some n =>
    have := h n rfl
    simp only [jsOrZero]
    split <;> omega

theorem jsParseInt_nonneg (s : String)
    (h : (s.data.dropWhile isJsWs).head? ≠ some '-') :
    ∀ n, jsParseInt s = some n → 0 ≤ n := by
  intro n hn
  rw [jsParseInt, if_neg h] at hn
  by_cases h2 : (s.data.dropWhile isJsWs).head? = some '+'
  · rw [if_pos h2] at hn
    cases hp : parseNatPart (s.data.dropWhile isJsWs).tail with
    | none => rw [hp] at hn; cases hn
    | some a =>
      rw [hp] at hn
      simp at hn
      omega
  · rw [if_neg h2] at hn
    cases hp : parseNatPart (s.data.dropWhile isJsWs) with
    | none => rw [hp] at hn; cases hn
    | some a =>
      rw [hp] at hn
      simp at hn
      omega

theorem jsOrZero_parse_nonneg (s : String)
    (h : (s.data.dropWhile isJsWs).head? ≠ some '-') :
    0 ≤ jsOrZero (jsParseInt s) :=
  jsOrZero_nonneg_of _ (jsParseInt_nonneg s h)

/-- C6 (amended): the fee derivation never throws, maps "free" (and any
unparsable text) to 0, and is non-negative for every fee text that does not
start (after whitespace) with a minus sign; a leading minus sign can produce
a negative fee (see the counterexample). -/
theorem claim_C6_fee_amended (s : String) :
    (jsToLower s == "free" → entryFee1 s = 0) ∧
    (jsParseInt s = none → entryFee1 s = 0 ∧ entryFee2 s = 0) ∧
    ((s.data.dropWhile isJsWs).head? ≠ some '-' →
      0 ≤ entryFee1 s ∧ 0 ≤ entryFee2 s) := by
  refine ⟨?_, ?_, ?_⟩
  · intro h
    simp [entryFee1, h]
  · intro h
    constructor
    · unfold entryFee1
      split
      · rfl
      · simp [h, jsOrZero]
    · simp [entryFee2, h, jsOrZero]
  · intro h
    have hz := jsOrZero_parse_nonneg s h
    constructor
    · unfold entryFee1
      split
      · omega
      · exact hz
    · exact hz

/-- C6 counterexample: the fee text "-5" yields entryFee -5 < 0 in both
variants, contradicting the claimed non-negativity invariant. -/
theorem claim_C6_counterexample :
    entryFee1 "-5" = -5 ∧ entryFee2 "-5" = -5 ∧ entryFee1 "-5" < 0 := by
  refine ⟨rfl, rfl, by decide⟩

/-- C8 (amended): the full-replace variant's `parseEventDate` returns the
parsed instant or null when unparseable; the incremental variant's returns
the parsed instant or the CURRENT CLOCK TIME when unparseable — never
null. -/
theorem claim_C8_date_amended (parse : String → Option Int) (now : Int) (s : String) :
    (parse s = none →
      parseEventDate1 parse s = none ∧ parseEventDate2 parse now s = some now) ∧
    (∀ t, parse s = some t →
      parseEventDate1 parse s = some t ∧ parseEventDate2 parse now s = some t) := by
  constructor
  · intro h
    exact ⟨by simp [parseEventDate1, h], by simp [parseEventDate2, h]⟩
  · intro t h
    exact ⟨by simp [parseEventDate1, h], by simp [parseEventDate2, h]⟩

/-- C8 counterexample: on a date text its host cannot parse, the
incremental variant's `parseEventDate` yields the current clock time
(instant 12345 here), a non-null value — the claim says this never
happens. -/
theorem claim_C8_counterexample :
    parseEventDate2 (fun _ => none) 12345 "garbage" = some 12345 ∧
      parseEventDate2 (fun _ => none) 12345 "garbage" ≠ none := by
  exact ⟨rfl, by simp [parseEventDate2]⟩

theorem all_takeWhile_self (p : Char → Bool) (l : List Char) :
    (l.takeWhile p).all p = true := by
  induction l with
  | nil => rfl
  | cons c rest ih =>
    by_cases hc : p c
    · simp [List.takeWhile_cons, hc, ih]
    · simp [List.takeWhile_cons, hc]

theorem takeWhile_append_of_all (p : Char → Bool) (l : List Char)
    (hl : l.all p = true) (c : Char) (hc : p c = false) (r : List Char) :
    (l ++ c :: r).takeWhile p = l := by
  induction l with
  | nil => simp [List.takeWhile_cons, hc]
  | cons a as ih =>
    simp only [List.all_cons, Bool.and_eq_true] at hl
    simp [List.takeWhile_cons, hl.1, ih hl.2]

theorem reFindRange_eq_none (l : List Char) (h : l.any Char.isDigit = false) :
    reFindRange l = none := by
  induction l with
  | nil => rfl
  | cons c rest ih =>
    simp only [List.any_cons, Bool.or_eq_false_iff] at h
    simp [reFindRange, h.1, ih h.2]

theorem reFindRange_shapes (l : List Char) (h : l.any Char.isDigit = true) :
    ∃ g1 og2, reFindRange l = some (g1, og2) ∧ isDigitsL g1 = true ∧
      ∀ g2, og2 = some g2 → isDigitsL g2 = true := by
  induction l with
  | nil => cases h
  | cons c rest ih =>
    by_cases hc : c.isDigit
    · have hds1 : isDigitsL ((c :: rest).takeWhile Char.isDigit) = true := by
        simp [isDigitsL, List.takeWhile_cons, hc, all_takeWhile_self]
      simp only [reFindRange, hc, if_true]
      split
      · next r2 heq =>
        by_cases he : (r2.takeWhile Char.isDigit).isEmpty
        · exact ⟨_, none, by simp [he], hds1, fun g2 hg2 => by cases hg2⟩
        · refine ⟨_, some (r2.takeWhile Char.isDigit), by simp [he], hds1,
            fun g2 hg2 => ?_⟩
          cases hg2
          simp only [isDigitsL, Bool.and_eq_true]
          exact ⟨by simpa using he, all_takeWhile_self _ _⟩
      · next heq => exact ⟨_, none, rfl, hds1, fun g2 hg2 => by cases hg2⟩
    · have hrest : rest.any Char.isDigit = true := by
        simp only [List.any_cons] at h
        simpa [hc] using h
      simpa [reFindRange, hc] using ih hrest

/-- C9 (amended): `parseTeamSize` never throws; when the text contains a
digit it returns a `min-max` range or a single integer, and when it contains
no digit it returns "1" (empty or "individual"-containing text) or the input
text unchanged — not always "1" as claimed. -/
theorem claim_C9_team_size_amended (t : String) :
    (t.data.any Char.isDigit = true →
      isRangeStr (parseTeamSize t) = true ∨ isDigitsStr (parseTeamSize t) = true) ∧
    (t.data.any Char.isDigit = false →
      parseTeamSize t = "1" ∨ parseTeamSize t = t) := by
  constructor
  · intro h
    have ht : t ≠ "" := by
      intro he
      rw [he] at h
      cases h
    have hne : (t == "") = false := beq_eq_false_iff_ne.mpr ht
    obtain ⟨g1, og2, hfind, hg1, hg2⟩ := reFindRange_shapes t.data h
    unfold parseTeamSize
    rw [hne]
    simp only [Bool.false_eq_true, if_false]
    rw [hfind]
    cases og2 with
    | some g2 =>
      left
      have hg2' : isDigitsL g2 = true := hg2 g2 rfl
      simp only [isDigitsL, Bool.and_eq_true] at hg1 hg2'
      have h1 : (g1 ++ '-' :: g2).takeWhile Char.isDigit = g1 :=
        takeWhile_append_of_all Char.isDigit g1 hg1.2 '-' (by decide) g2
      have h2 : (g1 ++ '-' :: g2).drop g1.length = '-' :: g2 :=
        List.drop_left g1 ('-' :: g2)
      simp [isRangeStr, h1, h2, hg1.1, isDigitsL, hg2'.1, hg2'.2]
    | none =>
      right
      simpa [isDigitsStr] using hg1
  · intro h
    have hnone := reFindRange_eq_none t.data h
    unfold parseTeamSize
    by_cases ht : t == ""
    · left
      simp [ht]
    · rw [Bool.not_eq_true] at ht
      rw [ht]
      simp only [Bool.false_eq_true, if_false]
      rw [hnone]
      by_cases hind : jsIncludes (jsToLower t) "individual"
      · left
        simp [hind]
      · right
        rw [if_neg hind]

/-- C9 counterexample: `parseTeamSize "Solo"` returns "Solo", which is
neither a `min-max` range, nor a single integer, nor the string "1". -/
theorem claim_C9_counterexample :
    parseTeamSize "Solo" = "Solo" ∧
      (isRangeStr (parseTeamSize "Solo") || isDigitsStr (parseTeamSize "Solo") ||
        (parseTeamSize "Solo" == "1")) = false := by
  exact ⟨rfl, by decide⟩

/-- C2 witness: the abort theorem applied to a concrete failing upload. -/
theorem claim_C2_witness :
    scrapeLoop sampleEnv
        (fun eid _ => if eid == "1" then .error "boom" else .ok "u")
        [sampleCard "1", sampleCard "2"] = .error "boom" :=
  claim_C2_image_failure_aborts_run sampleEnv _ _ _ _ _ rfl rfl

/-- C6 witness: a plain digit fee text has no leading minus sign and its
derived fee is non-negative. -/
theorem claim_C6_witness :
    ((("12" : String).data.dropWhile isJsWs).head? ≠ some '-') ∧
      0 ≤ entryFee1 "12" := by
  refine ⟨by decide, ?_⟩
  exact ((claim_C6_fee_amended "12").2.2 (by decide)).1

/-- C7 witness: under `sampleEnv` the date "2099-01-01" passes the filter and
the scenario record is derived. -/
theorem claim_C7_witness :
    (deriveEvent sampleEnv
        ⟨some "42", "Hack Night", "2099-01-01", "", ["(Workshop)"], none,
          "Free", [("fa-user", "2-4")]⟩).map
      (fun d => (d.id, d.entry_fee, d.team_size, d.category)) =
    some ("official:42:workshop-all-0", 0, "2-4", "Workshop") :=
  claim_C7_scenario sampleEnv rfl

/-- C8 witness: a host parser that rejects "x" drives the full-replace
variant to null and the incremental variant to the clock time 5. -/
theorem claim_C8_witness :
    ((fun (_ : String) => (none : Option Int)) "x" = none) ∧
      parseEventDate1 (fun _ => none) "x" = none ∧
      parseEventDate2 (fun _ => none) 5 "x" = some 5 := by
  refine ⟨rfl, ?_⟩
  exact (claim_C8_date_amended (fun _ => none) 5 "x").1 rfl

/-- C9 witness: "2-4" contains a digit and parses to a range or an integer. -/
theorem claim_C9_witness :
    ("2-4" : String).data.any Char.isDigit = true ∧
      (isRangeStr (parseTeamSize "2-4") = true ∨
        isDigitsStr (parseTeamSize "2-4") = true) := by
  refine ⟨by decide, ?_⟩
  exact (claim_C9_team_size_amended "2-4").1 (by decide)

/-- C10 witness: with one scraped record, a failing cache write, and no store
errors, sync succeeds, the cache file stays `none`, and the process exits 0. -/
theorem claim_C10_witness :
    ([(⟨"a", "t", none, "v", "g", "all", 0, "1", none, true⟩ : EventRecord)] ≠
        ([] : List EventRecord)) ∧
      (syncWithSupabase 0 true none none none
          [⟨"a", "t", none, "v", "g", "all", 0, "1", none, true⟩]).map
        (fun r => (r.1.success, r.2)) = .ok (true, none) ∧
      mainIncremental true
          (.ok [⟨"a", "t", none, "v", "g", "all", 0, "1", none, true⟩])
          0 true none none none = (0, none) := by
  have h := claim_C10_cache_write_failure_swallowed 0 none
    [⟨"a", "t", none, "v", "g", "all", 0, "1", none, true⟩] (by simp)
  exact ⟨by simp, h.1, h.2⟩
